import Mathlib

/-!
Shallow embedding of the farm-scheduling subsystem of the Travian speed bot
(`src/modules/farming.py`, `src/modules/farm_finder.py`, plus the multi-list
farm-store operations that the repository invokes but does not ship; those are
modelled from the specification and marked as such).

Machine integers are modelled as `Nat`/`Int` (Python integers are unbounded);
timestamps (`time.time()`) are modelled as a `Nat` parameter `now`; the
browser/DOM environment consumed by `send_raid` is modelled as an explicit
oracle structure `SendEnv`; the tile classifier `_parse_tile` is modelled as a
function `Int → Int → Option ScannedTile` (`none` = the classifier threw).
-/

namespace Travian

/-- Embeds `FarmTarget` (farming.py lines 35-48).  `troops` is a Python dict
in insertion order, embedded as an association list. -/
structure FarmTarget where
  id : Nat
  name : String
  x : Int
  y : Int
  troops : List (String × Nat)
  last_raid : String := ""
  raids_sent : Nat := 0
  enabled : Bool := true
  notes : String := ""
  travel_time : Nat := 0
  next_raid_at : Nat := 0
deriving DecidableEq

/-- `TROOP_SPEEDS['romans']` (farming.py lines 20-23). -/
def romans_speeds : List (String × Nat) :=
  [("t1", 6), ("t2", 5), ("t3", 7), ("t4", 16), ("t5", 14),
   ("t6", 10), ("t7", 4), ("t8", 3), ("t9", 4), ("t10", 5), ("t11", 35)]

/-- `TROOP_SPEEDS['gauls']` (farming.py lines 24-27). -/
def gauls_speeds : List (String × Nat) :=
  [("t1", 7), ("t2", 6), ("t3", 17), ("t4", 19), ("t5", 16),
   ("t6", 13), ("t7", 4), ("t8", 3), ("t9", 5), ("t10", 5), ("t11", 35)]

/-- `TROOP_SPEEDS['teutons']` (farming.py lines 28-31). -/
def teutons_speeds : List (String × Nat) :=
  [("t1", 7), ("t2", 7), ("t3", 6), ("t4", 9), ("t5", 10),
   ("t6", 9), ("t7", 4), ("t8", 3), ("t9", 4), ("t10", 5), ("t11", 35)]

/-- `TROOP_SPEEDS` (farming.py lines 19-32). -/
def TROOP_SPEEDS : List (String × List (String × Nat)) :=
  [("romans", romans_speeds), ("gauls", gauls_speeds), ("teutons", teutons_speeds)]

/-- `TROOP_SPEEDS.get(self.tribe, TROOP_SPEEDS['romans'])` (farming.py line 210). -/
def tribe_speeds (tribe : String) : List (String × Nat) :=
  (TROOP_SPEEDS.lookup tribe).getD romans_speeds

/-- The in-memory state of `FarmListManager` (farming.py lines 99-109).
`farms` is the Python dict `self.farms` in insertion order; every reachable
state keys entries by their `id` field.  The browser handle is not state. -/
structure FarmListManager where
  farms : List FarmTarget := []
  farm_counter : Nat := 0
  default_troops : List (String × Nat) := []
  raid_interval : Nat := 300
  tribe : String := "romans"
  server_speed : Nat := 1
  home_x : Int := 0
  home_y : Int := 0
deriving DecidableEq

/-- Squared Euclidean distance from the manager's home to a farm; the source
computes `math.sqrt` of this quantity (farming.py line 206).  It is a
nonnegative integer, so we carry the square and take square roots exactly
where the source truncates to `int`. -/
def dist_sq (mgr : FarmListManager) (farm : FarmTarget) : Nat :=
  (((farm.x - mgr.home_x) ^ 2 + (farm.y - mgr.home_y) ^ 2)).toNat

/-- Option-valued minimum step: the code's `if speed < slowest: slowest = speed`
update (farming.py lines 217-218) in one step. -/
def omin (acc : Option Nat) (v : Nat) : Option Nat :=
  match acc with
  | none => some v
  | some m => some (if v < m then v else m)

/-- Spec-side description of the speeds considered by the estimator (spec
section 4.2 step 2): the table speeds of all troop kinds with count > 0, in
mapping order. -/
def matching_speeds (speeds troops : List (String × Nat)) : List Nat :=
  troops.filterMap (fun kv => if 0 < kv.2 then speeds.lookup kv.1 else none)

/-- The `slowest_speed` accumulation loop of `estimate_travel_time`
(farming.py lines 213-218): scan the troop mapping in order; any entry with a
positive amount whose key is in the tribe speed table contributes its speed;
keep the minimum seen so far. -/
def slowest_speed (speeds : List (String × Nat)) (troops : List (String × Nat)) : Option Nat :=
  troops.foldl
    (fun acc kv =>
      if 0 < kv.2 then
        match speeds.lookup kv.1 with
        | some s => omin acc s
        | none => acc
      else acc)
    none

/-- `estimate_travel_time` (farming.py lines 204-228).  The source computes
`int((math.sqrt(d2) / (slowest * server_speed)) * 2 * 3600)` in floating
point; over exact arithmetic this truncation equals
`Nat.sqrt (d2 * 7200^2) / (slowest * server_speed)` because
`⌊√d2 · 7200 / v⌋ = ⌊√(d2·7200²) / v⌋ = ⌊⌊√(d2·7200²)⌋ / v⌋` for `v > 0`
(`51840000 = 7200^2`).  The source raises `ZeroDivisionError` when the
effective speed is 0 (only possible for `server_speed = 0`); theorems below
hypothesise `0 < server_speed`. -/
def estimate_travel_time (mgr : FarmListManager) (farm : FarmTarget) : Nat :=
  if dist_sq mgr farm = 0 then 0
  else
    match slowest_speed (tribe_speeds mgr.tribe) farm.troops with
    | none => 0
    | some s => Nat.sqrt (dist_sq mgr farm * 51840000) / (s * mgr.server_speed)

/-- The browser-side observations consumed by one `send_raid` attempt
(farming.py lines 365-524): whether a troop input element is found for a given
troop key (lines 386-397), whether an error indicator appears in the page text
(lines 442-450), whether a confirmation button is present (lines 452-464), and
the travel duration parsed from the confirmation page, if any
(`parse_travel_time_from_page`, lines 230-258, one-way seconds). -/
structure SendEnv where
  input_found : String → Bool
  has_error : Bool
  has_confirm : Bool
  parse_travel_time : Option Nat

/-- `send_raid` (farming.py lines 365-524), state-relevant effects only.
Returns the updated farm and the success flag.  Branches, in source order:
no positive troop amount entered → plain `False` return with no state change
(lines 403-405); error indicator or missing confirmation → 60-second retry
backoff (lines 466-477); otherwise success: a truthy parsed one-way time `t`
caches `2*t` as the round trip (Python `if one_way:` is false for `None` and
for `0`, lines 489-492), else a zero cache falls back to the estimate when
positive (lines 493-498); a positive cache schedules the next raid
(lines 500-503); stats update (lines 505-508). -/
def send_raid (mgr : FarmListManager) (env : SendEnv) (now : Nat) (farm : FarmTarget) :
    FarmTarget × Bool :=
  let troops_entered := farm.troops.any (fun kv => decide (0 < kv.2) && env.input_found kv.1)
  if troops_entered = false then (farm, false)
  else if env.has_error || !env.has_confirm then
    ({ farm with next_raid_at := now + 60 }, false)
  else
    let fallback : Nat :=
      if farm.travel_time = 0 then
        (if 0 < estimate_travel_time mgr farm then estimate_travel_time mgr farm
         else farm.travel_time)
      else farm.travel_time
    let tt : Nat :=
      match env.parse_travel_time with
      | some one_way => if one_way ≠ 0 then one_way * 2 else fallback
      | none => fallback
    let nra : Nat := if 0 < tt then now + tt else farm.next_raid_at
    ({ farm with travel_time := tt, next_raid_at := nra,
                 last_raid := toString now, raids_sent := farm.raids_sent + 1 }, true)

/-- In-place mutation of a farm object shared with the store (Python object
identity): replace the entry with the same id. -/
def update_farm (farms : List FarmTarget) (f : FarmTarget) : List FarmTarget :=
  farms.map (fun g => if g.id = f.id then f else g)

/-- Common shape of the two dispatch sweeps of `auto_raid_loop`
(farming.py lines 569-595): snapshot `get_enabled_farms()` (line 200-202),
iterate it in order, and for each farm satisfying `cond` perform one
`send_raid` attempt (the per-farm browser environment is indexed by farm id).
Returns the updated manager and the ordered log of farm ids for which a
dispatch was attempted. -/
def run_dispatch_round (mgr : FarmListManager) (env : Nat → SendEnv) (now : Nat)
    (cond : FarmTarget → Bool) : FarmListManager × List Nat :=
  let snapshot := mgr.farms.filter (fun fm => fm.enabled)
  let res := snapshot.foldl
    (fun acc fm =>
      if cond fm then
        let r := send_raid mgr (env fm.id) now fm
        (update_farm acc.1 r.1, acc.2 ++ [fm.id])
      else acc)
    (mgr.farms, ([] : List Nat))
  ({ mgr with farms := res.1 }, res.2)

/-- The initial wave of `auto_raid_loop` (farming.py lines 569-580):
skip farms with an empty troop mapping, dispatch when `next_raid_at <= now`. -/
def initial_sweep (mgr : FarmListManager) (env : Nat → SendEnv) (now : Nat) :
    FarmListManager × List Nat :=
  run_dispatch_round mgr env now
    (fun fm => !fm.troops.isEmpty && decide (fm.next_raid_at ≤ now))

/-- One pass of the main loop of `auto_raid_loop` (farming.py lines 583-595):
`now` is read once per pass; a farm is dispatched when its troop mapping is
non-empty, it is enabled, and `next_raid_at > 0 and now >= next_raid_at`. -/
def raid_pass (mgr : FarmListManager) (env : Nat → SendEnv) (now : Nat) :
    FarmListManager × List Nat :=
  run_dispatch_round mgr env now
    (fun fm => (!fm.troops.isEmpty && fm.enabled) &&
               (decide (0 < fm.next_raid_at) && decide (fm.next_raid_at ≤ now)))

/-! ## Farm finder (`src/modules/farm_finder.py`) and the multi-list store -/

/-- Embeds `ScanFilter` (farm_finder.py lines 16-26). -/
structure ScanFilter where
  radius : Nat := 10
  max_population : Nat := 50
  include_natars : Bool := true
  include_player_villages : Bool := true
  include_unoccupied_oases : Bool := true
  include_occupied_oases : Bool := true
  exclude_alliances : List String := []
  exclude_players : List String := []
deriving DecidableEq

/-- Embeds `ScannedTile` (farm_finder.py lines 29-41).  The `distance` field
(a float never read by the filter or by `scan_area`) is omitted. -/
structure ScannedTile where
  x : Int
  y : Int
  tile_type : String
  name : String := ""
  player_name : String := ""
  alliance : String := ""
  population : Nat := 0
  is_capital : Bool := false
  tribe : String := ""
deriving DecidableEq

/-- Python `needle in hay` on strings. -/
def str_contains (hay needle : String) : Bool :=
  decide (List.IsInfix needle.toList hay.toList)

/-- `_matches_filter` (farm_finder.py lines 275-305), an early-return chain:
type-inclusion toggles, Natar exclusion, population cap (population 0 means
unknown and passes), then case-insensitive substring exclusion of alliances
and players, each guarded by the Python truthiness of the tile field and of
the exclusion list. -/
def matches_filter (tile : ScannedTile) (sf : ScanFilter) : Bool :=
  if tile.tile_type == "oasis_unoccupied" && !sf.include_unoccupied_oases then false
  else if tile.tile_type == "oasis_occupied" && !sf.include_occupied_oases then false
  else if tile.tile_type == "village" && !sf.include_player_villages then false
  else if str_contains tile.player_name.toLower "natar" && !sf.include_natars then false
  else if decide (0 < tile.population) && decide (sf.max_population < tile.population) then false
  else if (tile.alliance != "" && !sf.exclude_alliances.isEmpty) &&
          sf.exclude_alliances.any
            (fun e => str_contains tile.alliance.toLower e.toLower) then false
  else if (tile.player_name != "" && !sf.exclude_players.isEmpty) &&
          sf.exclude_players.any
            (fun e => str_contains tile.player_name.toLower e.toLower) then false
  else true

/-- The spec-side filter conjunction (spec section 4.4, "Filter application
order"): type inclusion, Natar exclusion, population cap with 0 = unknown =
allow, alliance substring exclusion, player substring exclusion.  Stated
independently of the early-return chain above so that claim C9 compares the
two; exclusion only triggers on a non-empty tile field, matching the spec's
reading of "substring exclusion" of an actual name. -/
def other_filters_pass (tile : ScannedTile) (sf : ScanFilter) : Bool :=
  (!(tile.tile_type == "oasis_unoccupied") || sf.include_unoccupied_oases) &&
  ((!(tile.tile_type == "oasis_occupied") || sf.include_occupied_oases) &&
  ((!(tile.tile_type == "village") || sf.include_player_villages) &&
  ((!(str_contains tile.player_name.toLower "natar") || sf.include_natars) &&
  (!((tile.alliance != "" && !sf.exclude_alliances.isEmpty) &&
      sf.exclude_alliances.any (fun e => str_contains tile.alliance.toLower e.toLower)) &&
   !((tile.player_name != "" && !sf.exclude_players.isEmpty) &&
      sf.exclude_players.any (fun e => str_contains tile.player_name.toLower e.toLower))))))

/-- `_generate_spiral_coords` ring `r` (farm_finder.py lines 310-322): top
edge left-to-right, right edge top-to-bottom (corner excluded), bottom edge
right-to-left (corner excluded), left edge bottom-to-top (corners excluded). -/
def ring_coords (cx cy : Int) (r : Nat) : List (Int × Int) :=
  ((List.range (2 * r + 1)).map
    (fun (i : Nat) => (cx - (r : Int) + (i : Int), cy + (r : Int)))) ++
  ((List.range (2 * r)).map
    (fun (i : Nat) => (cx + (r : Int), cy + (r : Int) - 1 - (i : Int)))) ++
  ((List.range (2 * r)).map
    (fun (i : Nat) => (cx + (r : Int) - 1 - (i : Int), cy - (r : Int)))) ++
  ((List.range (2 * r - 1)).map
    (fun (i : Nat) => (cx - (r : Int), cy - (r : Int) + 1 + (i : Int))))

/-- The order-preserving de-duplication at the end of
`_generate_spiral_coords` (farm_finder.py lines 324-331): a `seen` set and an
output list appended to on first occurrence. -/
def dedup_first (seen : List (Int × Int)) : List (Int × Int) → List (Int × Int)
  | [] => []
  | c :: rest => if c ∈ seen then dedup_first seen rest else c :: dedup_first (c :: seen) rest

/-- `_generate_spiral_coords` (farm_finder.py lines 307-331). -/
def generate_spiral_coords (cx cy : Int) (radius : Nat) : List (Int × Int) :=
  dedup_first [] (((List.range radius).map (fun k => ring_coords cx cy (k + 1))).flatten)

/-- Chebyshev distance of a tile from the scan center ("ring r" = all tiles
at Chebyshev distance r, spec section 4.4). -/
def cheb_dist (cx cy : Int) (p : Int × Int) : Nat :=
  max (p.1 - cx).natAbs (p.2 - cy).natAbs

/-- One named farm list of the multi-list store.
Modelled from the spec: the multi-list `FarmListManager` (fields
`farm_lists`, `active_list_name`, `scan_history` and methods
`create_farm_list`, `delete_farm_list`, `add_farm_to_list`,
`is_coordinate_in_any_list`) is invoked by `interactive_bot.py` and
`farm_finder.py` but is absent from `src/modules/farming.py`; spec section 3
"FarmList": a named, ordered collection of FarmTargets with a per-list
monotonic id counter. -/
structure FarmListData where
  counter : Nat := 0
  farms : List FarmTarget := []
deriving DecidableEq

/-- Modelled from the spec: the multi-list store state (spec sections 3 and
4.1) — named lists, the active-list pointer, and the scan history (a flat
list of `"x,y"` coordinate keys, spec section 6). -/
structure Store where
  lists : List (String × FarmListData) := []
  active_list_name : String := "default"
  scan_history : List String := []
deriving DecidableEq

/-- The `f"{x},{y}"` coordinate key (farm_finder.py line 86). -/
def coord_key (x y : Int) : String := toString x ++ "," ++ toString y

/-- Modelled from the spec: `isCoordinateInAnyList(x, y) -> listName|null`, a
linear scan across all lists (spec section 4.1). -/
def is_coordinate_in_any_list (s : Store) (x y : Int) : Option String :=
  (s.lists.find? (fun kv => kv.2.farms.any (fun fm => fm.x == x && fm.y == y))).map
    (fun kv => kv.1)

/-- Modelled from the spec: `add_farm_to_list` — `addFarm` targeted at a
named list (spec section 4.1): allocate the next id from that list's counter
(monotonic), insert enabled-by-default, return the id; an unknown list name
yields no insertion (id 0, the caller checks `farm_id > 0`). -/
def add_farm_to_list (s : Store) (list_name name : String) (x y : Int) (notes : String) :
    Store × Nat :=
  match s.lists.find? (fun kv => kv.1 == list_name) with
  | none => (s, 0)
  | some kv =>
    let newId := kv.2.counter + 1
    let farm : FarmTarget :=
      { id := newId, name := name, x := x, y := y, troops := [], notes := notes }
    let newLists := s.lists.map
      (fun kv2 => if kv2.1 == list_name then
          (kv2.1, { counter := newId, farms := kv2.2.farms ++ [farm] })
        else kv2)
    ({ s with lists := newLists }, newId)

/-- Modelled from the spec: `delete_farm_list(name)` (spec section 4.1):
"deleting the active list must be rejected (fails with a `cannot delete
active list` condition); deleting any other list removes all its farms
irrecoverably".  The method itself is invoked at interactive_bot.py
line 2794 but is not defined under `src/`. -/
def delete_farm_list (s : Store) (name : String) : Except String Store :=
  if name = s.active_list_name then .error "cannot delete active list"
  else .ok { s with lists := s.lists.filter (fun kv => kv.1 != name) }

/-- The stats dict of `scan_area` (farm_finder.py lines 57-64). -/
structure ScanStats where
  scanned : Nat := 0
  found : Nat := 0
  added : Nat := 0
  skipped_duplicate : Nat := 0
  skipped_filter : Nat := 0
  errors : Nat := 0
deriving DecidableEq

/-- State threaded through the `scan_area` loop: the store, the stats, plus
`classified_log`, an instrumentation list recording (coordinate key, success)
for exactly the coordinates submitted to `_parse_tile` — it mirrors the
`stats['scanned']` increment at farm_finder.py line 93 and exists only so the
theorems can quantify over "coordinates actually classified". -/
structure ScanResult where
  store : Store
  stats : ScanStats := {}
  classified_log : List (String × Bool) := []
deriving DecidableEq

/-- One iteration of the `scan_area` loop body (farm_finder.py lines 74-128),
for coordinate `p`: skip if the coordinate is in any list (line 80), skip if
its key is already in scan history (line 87), otherwise classify
(`_parse_tile`, line 92; `stats['scanned']` increments regardless of outcome,
line 93); a `None` classification counts an error and moves on (lines 95-97)
— the coordinate is NOT recorded in scan history; a successful classification
is recorded in scan history (line 100), then filtered (empty/wilderness
dropped, `_matches_filter` applied) and added via `add_farm_to_list`
(lines 104-124).  The stop callback is not modelled: claims concern completed
scans. -/
def scan_step (classify : Int → Int → Option ScannedTile) (sf : ScanFilter)
    (target_list : String) (st : ScanResult) (p : Int × Int) : ScanResult :=
  if (is_coordinate_in_any_list st.store p.1 p.2).isSome then
    { st with stats := { st.stats with skipped_duplicate := st.stats.skipped_duplicate + 1 } }
  else if st.store.scan_history.contains (coord_key p.1 p.2) then
    { st with stats := { st.stats with skipped_duplicate := st.stats.skipped_duplicate + 1 } }
  else
    match classify p.1 p.2 with
    | none =>
      { st with
        stats := { st.stats with scanned := st.stats.scanned + 1,
                                 errors := st.stats.errors + 1 },
        classified_log := st.classified_log ++ [(coord_key p.1 p.2, false)] }
    | some tile =>
      let st1 : ScanResult :=
        { store := { st.store with
                     scan_history := st.store.scan_history ++ [coord_key p.1 p.2] },
          stats := { st.stats with scanned := st.stats.scanned + 1 },
          classified_log := st.classified_log ++ [(coord_key p.1 p.2, true)] }
      if tile.tile_type == "empty" || tile.tile_type == "wilderness" then st1
      else if !(matches_filter tile sf) then
        { st1 with stats := { st1.stats with skipped_filter := st1.stats.skipped_filter + 1 } }
      else
        let st2 : ScanResult :=
          { st1 with stats := { st1.stats with found := st1.stats.found + 1 } }
        let res := add_farm_to_list st2.store target_list
          (if tile.name == "" then
              "(" ++ toString p.1 ++ "|" ++ toString p.2 ++ ")"
            else tile.name)
          p.1 p.2
          ("pop:" ++ toString tile.population ++ " type:" ++ tile.tile_type
            ++ " player:" ++ tile.player_name)
        let newStats :=
          if 0 < res.2 then { st2.stats with added := st2.stats.added + 1 } else st2.stats
        { st2 with store := res.1, stats := newStats }

/-- The deduplication guard of the scan loop (farm_finder.py lines 79-89) as
a proposition: the coordinate is already in some farm list, or its key is
already in scan history. -/
def dup_at (s : Store) (p : Int × Int) : Prop :=
  (is_coordinate_in_any_list s p.1 p.2).isSome = true ∨
  coord_key p.1 p.2 ∈ s.scan_history

/-- `scan_area` (farm_finder.py lines 51-144): walk the spiral coordinates
for the filter's radius, threading the store and stats through `scan_step`.
The final `save_farms()` persistence call is outside the in-memory state. -/
def scan_area (classify : Int → Int → Option ScannedTile) (center_x center_y : Int)
    (sf : ScanFilter) (target_list : String) (store : Store) : ScanResult :=
  (generate_spiral_coords center_x center_y sf.radius).foldl
    (scan_step classify sf target_list) { store := store }

/-! ## Persistence (`save_farms` / `load_farms`, farming.py lines 111-150)

JSON serialization of JSON-representable data is the identity on the data, so
the file is modelled at the data level: `SavedData` is the dict written by
`save_farms` and read back by `load_farms`. -/

/-- The JSON object written by `save_farms` (farming.py lines 137-146). -/
structure SavedData where
  counter : Nat
  default_troops : List (String × Nat)
  raid_interval : Nat
  tribe : String
  server_speed : Nat
  home_x : Int
  home_y : Int
  farms : List FarmTarget
deriving DecidableEq

/-- `save_farms` (farming.py lines 134-150): dump every manager field and
`asdict(farm)` for each farm in dict order. -/
def save_farms (m : FarmListManager) : SavedData :=
  { counter := m.farm_counter, default_troops := m.default_troops,
    raid_interval := m.raid_interval, tribe := m.tribe,
    server_speed := m.server_speed, home_x := m.home_x, home_y := m.home_y,
    farms := m.farms }

/-- The dict assignment `self.farms[farm.id] = farm` of `load_farms`
(farming.py line 127): replace in place if the id is present (Python dicts
keep the original insertion position on update), else append. -/
def insert_farm (farms : List FarmTarget) (f : FarmTarget) : List FarmTarget :=
  if farms.any (fun g => g.id == f.id) then
    farms.map (fun g => if g.id = f.id then f else g)
  else farms ++ [f]

/-- `load_farms` on an existing well-formed file (farming.py lines 111-132):
read every field with its default, rebuild the farms dict entry by entry. -/
def load_farms (d : SavedData) : FarmListManager :=
  { farm_counter := d.counter, default_troops := d.default_troops,
    raid_interval := d.raid_interval, tribe := d.tribe,
    server_speed := d.server_speed, home_x := d.home_x, home_y := d.home_y,
    farms := d.farms.foldl insert_farm [] }

/-! ## Concrete inputs used by witnesses and counterexamples -/

/-- A browser environment where every troop input exists, the dispatch is
accepted (no error text, confirmation present) and no duration is parsed. -/
def env_ok_noparse : SendEnv :=
  { input_found := fun _ => true, has_error := false, has_confirm := true,
    parse_travel_time := none }

/-- A browser environment where the confirmation page parses to a one-way
duration of 0 seconds (`0:00:00`). -/
def env_ok_parse0 : SendEnv :=
  { input_found := fun _ => true, has_error := false, has_confirm := true,
    parse_travel_time := some 0 }

/-- A browser environment where the confirmation page parses to a 450-second
one-way duration. -/
def env_ok_parse450 : SendEnv :=
  { input_found := fun _ => true, has_error := false, has_confirm := true,
    parse_travel_time := some 450 }

/-- A browser environment where the page reports an error after submitting. -/
def env_error : SendEnv :=
  { input_found := fun _ => true, has_error := true, has_confirm := true,
    parse_travel_time := none }

/-- A manager at home (0,0), tribe romans, server speed 1 (defaults of
farming.py lines 99-109). -/
def mgr0 : FarmListManager := {}

/-- An enabled farm with a troop mapping whose only entry has amount 0 —
non-empty for the loop's `if not farm.troops` check, but no troop input ever
receives a positive amount. -/
def farm_zero_troops : FarmTarget :=
  { id := 1, name := "zerotroops", x := 3, y := 4, troops := [("t1", 0)], next_raid_at := 5 }

/-- An enabled farm located exactly at the manager's home coordinates. -/
def farm_at_home : FarmTarget :=
  { id := 2, name := "athome", x := 0, y := 0, troops := [("t1", 5)] }

/-- An enabled, never-scheduled farm (`next_raid_at = 0`) with troops. -/
def farm_unscheduled : FarmTarget :=
  { id := 3, name := "fresh", x := 3, y := 4, troops := [("t1", 10)] }

/-- A manager holding only `farm_unscheduled`. -/
def mgr_unscheduled : FarmListManager := { farms := [farm_unscheduled] }

/-- A store with one empty list named "default", which is active. -/
def store0 : Store := { lists := [("default", {})] }

/-- A classifier that throws on every coordinate (`_parse_tile` returns
`None`). -/
def classify_none : Int → Int → Option ScannedTile := fun _ _ => none

/-- A classifier that reports wilderness everywhere. -/
def classify_wild : Int → Int → Option ScannedTile :=
  fun x y => some { x := x, y := y, tile_type := "wilderness" }

/-- The radius-1 scan filter used by concrete scan runs. -/
def sf1 : ScanFilter := { radius := 1 }

/-- A manager with two farms exercising the persistence edge cases: one
disabled, one with an empty troop mapping. -/
def mgr_two_farms : FarmListManager :=
  { farms :=
      [{ id := 1, name := "alpha", x := -3, y := 7, troops := [("t1", 2), ("t3", 1)],
         last_raid := "10:00:00", raids_sent := 4, enabled := false, notes := "n1",
         travel_time := 120, next_raid_at := 99 },
       { id := 2, name := "beta", x := 5, y := -1, troops := [], notes := "n2" }],
    farm_counter := 2, default_troops := [("t1", 5)], raid_interval := 200,
    tribe := "gauls", server_speed := 2, home_x := 1, home_y := -2 }

/-- A store with an active "default" list and a second list "other" holding
one farm. -/
def store5 : Store :=
  { lists := [("default", {}), ("other", { counter := 1, farms := [farm_at_home] })] }

/-- The spec's worked example (spec section 8): home (0,0), tribe romans,
server speed 1, target (30,0), troops t1 x10 (speed 6). -/
def farm_spec_example : FarmTarget :=
  { id := 9, name := "example", x := 30, y := 0, troops := [("t1", 10)] }

/-- A tile with population 80 (used against `max_population = 50`). -/
def tile_pop80 : ScannedTile :=
  { x := 1, y := 1, tile_type := "village", name := "big", population := 80 }

/-- A village tile with population 0 (unknown). -/
def tile_pop0 : ScannedTile :=
  { x := 1, y := 2, tile_type := "village", name := "ghost", population := 0 }

/-! ## Theorems -/

theorem foldl_insert_farm (l : List FarmTarget) :
    ∀ acc : List FarmTarget,
      ((acc ++ l).map (fun f => f.id)).Nodup → l.foldl insert_farm acc = acc ++ l := by
  induction l with
  | nil => intro acc _; simp
  | cons f rest ih =>
    intro acc h
    have hid : ∀ g ∈ acc, ¬(g.id = f.id) := by
      intro g hg hgf
      have h2 := h
      simp only [List.map_append, List.nodup_append] at h2
      have hmem : f.id ∈ List.map (fun f => f.id) acc := by
        simp only [List.mem_map]
        exact ⟨g, hg, hgf⟩
      exact h2.2.2 hmem (by simp)
    have hstep : insert_farm acc f = acc ++ [f] := by
      unfold insert_farm
      have hany : acc.any (fun g => g.id == f.id) = false := by
        rw [List.any_eq_false]
        intro g hg
        simp only [beq_iff_eq]
        exact hid g hg
      simp [hany]
    have hre : (acc ++ [f]) ++ rest = acc ++ f :: rest := by simp
    calc (f :: rest).foldl insert_farm acc
        = rest.foldl insert_farm (insert_farm acc f) := rfl
      _ = rest.foldl insert_farm (acc ++ [f]) := by rw [hstep]
      _ = (acc ++ [f]) ++ rest := ih (acc ++ [f]) (by rw [hre]; exact h)
      _ = acc ++ f :: rest := hre

/-- C8: persistence round trip — for every manager state (with the reachable
stores' invariant that farm ids are unique keys), saving and then loading
reproduces every field of every farm — id, name, x, y, troops, last_raid,
raids_sent, enabled, notes, travel_time, next_raid_at, including disabled
farms and farms with empty troop mappings — together with the counter,
default troops, raid interval, tribe, server speed and home coordinates. -/
theorem c8_save_load_round_trip (m : FarmListManager)
    (h : (m.farms.map (fun f => f.id)).Nodup) :
    load_farms (save_farms m) = m := by
  have hfold : m.farms.foldl insert_farm [] = m.farms :=
    foldl_insert_farm m.farms [] (by simpa using h)
  cases m
  simp only [load_farms, save_farms] at *
  simp [hfold]

/-- Witness for C8 at a concrete two-farm store (one farm disabled, one with
an empty troop mapping). -/
theorem c8_witness :
    ((mgr_two_farms.farms.map (fun f => f.id)).Nodup) ∧
      load_farms (save_farms mgr_two_farms) = mgr_two_farms :=
  ⟨by decide, c8_save_load_round_trip mgr_two_farms (by decide)⟩

/-- C9: population filtering — a tile whose population is positive and
exceeds `max_population` never passes the filter, regardless of every other
filter setting; a tile with population 0 (unknown) passes the population
check, so it passes the whole filter exactly when the remaining checks (type
inclusion, Natar exclusion, alliance exclusion, player exclusion) pass. -/
theorem c9_population_filter (tile : ScannedTile) (sf : ScanFilter) :
    (0 < tile.population → sf.max_population < tile.population →
      matches_filter tile sf = false) ∧
    (tile.population = 0 →
      matches_filter tile sf = other_filters_pass tile sf) := by
  constructor
  · intro h1 h2
    unfold matches_filter
    split_ifs with a b c d e <;> simp_all
  · intro hpop
    unfold matches_filter other_filters_pass
    rw [hpop]
    split_ifs with a b c d e f g <;> simp_all
    refine ⟨imp_iff_not_or.mp a, imp_iff_not_or.mp b, imp_iff_not_or.mp c, ?_, ?_, ?_⟩
    · rcases imp_iff_not_or.mp d with h | h
      · exact Or.inl (by simpa using h)
      · exact Or.inr h
    · by_cases h1 : tile.alliance = ""
      · exact Or.inl (Or.inl h1)
      · by_cases h2 : sf.exclude_alliances = []
        · exact Or.inl (Or.inr h2)
        · exact Or.inr (f h1 h2)
    · by_cases h1 : tile.player_name = ""
      · exact Or.inl (Or.inl h1)
      · by_cases h2 : sf.exclude_players = []
        · exact Or.inl (Or.inr h2)
        · exact Or.inr (g h1 h2)

/-- Witness for C9: population 80 against cap 50 is rejected; the same filter
accepts an otherwise-identical tile with population 0. -/
theorem c9_witness :
    (0 < tile_pop80.population ∧ (50 : Nat) < tile_pop80.population ∧
      matches_filter tile_pop80 {} = false) ∧
    (tile_pop0.population = 0 ∧
      matches_filter tile_pop0 {} = other_filters_pass tile_pop0 {}) :=
  ⟨⟨by decide, by decide, (c9_population_filter tile_pop80 {}).1 (by decide) (by decide)⟩,
   ⟨by decide, (c9_population_filter tile_pop0 {}).2 (by decide)⟩⟩

/-- C5: deleting the active farm list fails with the distinguishable
"cannot delete active list" outcome (the store is untouched — the operation
returns no modified store); deleting any non-active list removes exactly that
list with all its farms and keeps every other list, the active pointer and
the scan history.  The multi-list store is modelled from the spec because
`delete_farm_list` is invoked (interactive_bot.py line 2794) but not defined
under `src/`. -/
theorem c5_delete_active_list (s : Store) (name : String) :
    (name = s.active_list_name →
      delete_farm_list s name = Except.error "cannot delete active list") ∧
    (name ≠ s.active_list_name →
      ∃ s', delete_farm_list s name = Except.ok s' ∧
        s'.active_list_name = s.active_list_name ∧
        s'.scan_history = s.scan_history ∧
        (∀ kv ∈ s'.lists, kv.1 ≠ name) ∧
        (∀ kv ∈ s.lists, kv.1 ≠ name → kv ∈ s'.lists) ∧
        (∀ kv ∈ s'.lists, kv ∈ s.lists)) := by
  constructor
  · intro h
    unfold delete_farm_list
    rw [if_pos h]
  · intro h
    refine ⟨{ s with lists := s.lists.filter (fun kv => kv.1 != name) }, ?_, rfl, rfl, ?_, ?_, ?_⟩
    · unfold delete_farm_list
      rw [if_neg h]
    · intro kv hkv
      have := (List.mem_filter.mp hkv).2
      simpa [bne_iff_ne] using this
    · intro kv hkv hne
      exact List.mem_filter.mpr ⟨hkv, by simpa [bne_iff_ne] using hne⟩
    · intro kv hkv
      exact (List.mem_filter.mp hkv).1

/-- Witness for C5 on a concrete two-list store: deleting the active
"default" list errors; deleting "other" succeeds. -/
theorem c5_witness :
    delete_farm_list store5 "default" = Except.error "cannot delete active list" ∧
    (∃ s', delete_farm_list store5 "other" = Except.ok s' ∧
      s'.active_list_name = store5.active_list_name ∧
      s'.scan_history = store5.scan_history ∧
      (∀ kv ∈ s'.lists, kv.1 ≠ "other") ∧
      (∀ kv ∈ store5.lists, kv.1 ≠ "other" → kv ∈ s'.lists) ∧
      (∀ kv ∈ s'.lists, kv ∈ store5.lists)) :=
  ⟨(c5_delete_active_list store5 "default").1 rfl,
   (c5_delete_active_list store5 "other").2 (by decide)⟩

/-- C2 (amended): after a dispatch attempt — a successful dispatch with a
positive parsed one-way time `t` sets `travel_time = 2t` and
`next_raid_at = dispatchTime + 2t`; a failed dispatch for which at least one
positive troop amount had an input field (so troops were actually entered)
sets `next_raid_at = dispatchTime + 60`; a failed dispatch in which no
positive troop amount could be entered returns with the target unchanged —
in particular with no 60-second backoff. -/
theorem c2_dispatch_reschedule (mgr : FarmListManager) (env : SendEnv) (now : Nat)
    (farm : FarmTarget) :
    ((send_raid mgr env now farm).2 = true →
      ∀ t, env.parse_travel_time = some t → 0 < t →
        (send_raid mgr env now farm).1.travel_time = 2 * t ∧
        (send_raid mgr env now farm).1.next_raid_at = now + 2 * t) ∧
    ((send_raid mgr env now farm).2 = false →
      (∃ kv ∈ farm.troops, 0 < kv.2 ∧ env.input_found kv.1 = true) →
      (send_raid mgr env now farm).1.next_raid_at = now + 60) ∧
    ((send_raid mgr env now farm).2 = false →
      (∀ kv ∈ farm.troops, ¬(0 < kv.2 ∧ env.input_found kv.1 = true)) →
      (send_raid mgr env now farm).1 = farm) := by
  unfold send_raid
  by_cases hte : farm.troops.any (fun kv => decide (0 < kv.2) && env.input_found kv.1) = false
  · rw [if_pos hte]
    refine ⟨by simp, ?_, by simp⟩
    intro _ hex
    exfalso
    obtain ⟨kv, hkv, hpos, hfound⟩ := hex
    rw [List.any_eq_false] at hte
    exact hte kv hkv (by simp [hpos, hfound])
  · rw [if_neg hte]
    by_cases herr : (env.has_error || !env.has_confirm) = true
    · rw [if_pos herr]
      refine ⟨by simp, fun _ _ => rfl, ?_⟩
      intro _ hall
      exfalso
      rw [Bool.not_eq_false, List.any_eq_true] at hte
      obtain ⟨kv, hkv, hb⟩ := hte
      simp only [Bool.and_eq_true, decide_eq_true_eq] at hb
      exact hall kv hkv ⟨hb.1, hb.2⟩
    · rw [if_neg herr]
      refine ⟨?_, by simp, by simp⟩
      intro _ t hparse hpos
      have ht0 : t ≠ 0 := by omega
      have hpos2 : 0 < t * 2 := by omega
      simp [hparse, ht0, hpos2, Nat.mul_comm]

/-- Witness for C2 at concrete inputs: a successful dispatch with parsed
one-way time 450 schedules the round trip 900; a dispatch failing on a page
error schedules the 60-second retry. -/
theorem c2_witness :
    ((send_raid mgr0 env_ok_parse450 1000 farm_unscheduled).1.travel_time = 2 * 450 ∧
      (send_raid mgr0 env_ok_parse450 1000 farm_unscheduled).1.next_raid_at = 1000 + 2 * 450) ∧
    (send_raid mgr0 env_error 1000 farm_unscheduled).1.next_raid_at = 1000 + 60 :=
  ⟨(c2_dispatch_reschedule mgr0 env_ok_parse450 1000 farm_unscheduled).1
      (by decide) 450 rfl (by decide),
   (c2_dispatch_reschedule mgr0 env_error 1000 farm_unscheduled).2.1
      (by decide) ⟨("t1", 10), by decide, by decide, rfl⟩⟩

/-- Counterexample for C2 as stated.  First conjunct: a farm whose non-empty
troop mapping carries only a zero amount fails to dispatch, yet its
`next_raid_at` stays at its old value 5 instead of dispatchTime + 60 (the
`troops_entered` early return at farming.py lines 403-405 sets no backoff).
Second conjunct: a successful dispatch whose confirmation page parses to the
one-way time 0 does not set `next_raid_at = dispatchTime + 2·0` — Python's
`if one_way:` treats a parsed 0 as "no parse" (farming.py line 490). -/
theorem c2_counterexample :
    ((send_raid mgr0 env_ok_noparse 1000 farm_zero_troops).2 = false ∧
      (send_raid mgr0 env_ok_noparse 1000 farm_zero_troops).1.next_raid_at = 5 ∧
      (5 : Nat) ≠ 1000 + 60) ∧
    ((send_raid mgr0 env_ok_parse0 1000 farm_at_home).2 = true ∧
      env_ok_parse0.parse_travel_time = some 0 ∧
      (send_raid mgr0 env_ok_parse0 1000 farm_at_home).1.next_raid_at ≠ 1000 + 2 * 0) := by
  decide

/-- C10: a target placed exactly at the home coordinates has estimated
travel time 0 ("unknown") whatever its troop composition, and consequently
no dispatch attempt ever changes its `travel_time` through the estimator —
the cached `travel_time` moves only when the confirmation page parses to an
authoritative positive one-way time `t` (to `2t`). -/
theorem c10_home_target_unknown (mgr : FarmListManager) (farm : FarmTarget)
    (hx : farm.x = mgr.home_x) (hy : farm.y = mgr.home_y) :
    estimate_travel_time mgr farm = 0 ∧
    ∀ env now,
      (send_raid mgr env now farm).1.travel_time = farm.travel_time ∨
      ∃ t, env.parse_travel_time = some t ∧ 0 < t ∧
        (send_raid mgr env now farm).1.travel_time = 2 * t := by
  have hest : estimate_travel_time mgr farm = 0 := by
    unfold estimate_travel_time dist_sq
    rw [hx, hy]
    simp
  refine ⟨hest, ?_⟩
  intro env now
  unfold send_raid
  by_cases hte : farm.troops.any (fun kv => decide (0 < kv.2) && env.input_found kv.1) = false
  · rw [if_pos hte]; exact Or.inl rfl
  · rw [if_neg hte]
    by_cases herr : (env.has_error || !env.has_confirm) = true
    · rw [if_pos herr]; exact Or.inl rfl
    · rw [if_neg herr]
      rcases hp : env.parse_travel_time with _ | t
      · simp only [hest]
        left
        by_cases h0 : farm.travel_time = 0 <;> simp [h0]
      · by_cases ht : t = 0
        · subst ht
          simp only [hest]
          left
          by_cases h0 : farm.travel_time = 0 <;> simp [h0]
        · right
          refine ⟨t, rfl, Nat.pos_of_ne_zero ht, ?_⟩
          simp [ht, Nat.mul_comm]

/-- Witness for C10 at the concrete home-located farm. -/
theorem c10_witness :
    estimate_travel_time mgr0 farm_at_home = 0 ∧
    ((send_raid mgr0 env_ok_noparse 7 farm_at_home).1.travel_time = farm_at_home.travel_time ∨
      ∃ t, env_ok_noparse.parse_travel_time = some t ∧ 0 < t ∧
        (send_raid mgr0 env_ok_noparse 7 farm_at_home).1.travel_time = 2 * t) :=
  ⟨(c10_home_target_unknown mgr0 farm_at_home rfl rfl).1,
   (c10_home_target_unknown mgr0 farm_at_home rfl rfl).2 env_ok_noparse 7⟩

theorem dispatch_fold_log (cond : FarmTarget → Bool)
    (g : List FarmTarget → FarmTarget → List FarmTarget) :
    ∀ (l fs : List FarmTarget) (log : List Nat),
      (l.foldl
        (fun acc fm => if cond fm then (g acc.1 fm, acc.2 ++ [fm.id]) else acc)
        (fs, log)).2 = log ++ (l.filter cond).map (fun fm => fm.id) := by
  intro l
  induction l with
  | nil => intro fs log; simp
  | cons fm rest ih =>
    intro fs log
    by_cases hc : cond fm
    · simp only [List.foldl_cons, if_pos hc, List.filter_cons_of_pos hc, List.map_cons]
      rw [ih]
      simp
    · simp only [List.foldl_cons, if_neg hc,
        List.filter_cons_of_neg (by simpa using hc)]
      exact ih fs log

theorem run_dispatch_round_log (mgr : FarmListManager) (env : Nat → SendEnv) (now : Nat)
    (cond : FarmTarget → Bool) :
    (run_dispatch_round mgr env now cond).2 =
      ((mgr.farms.filter (fun fm => fm.enabled)).filter cond).map (fun fm => fm.id) := by
  unfold run_dispatch_round
  exact dispatch_fold_log cond
    (fun fs fm => update_farm fs (send_raid mgr (env fm.id) now fm).1)
    (mgr.farms.filter (fun fm => fm.enabled)) mgr.farms []

/-- C1 (amended): within a single run of the loop body — the initial sweep
dispatches exactly once, in the store's iteration order, to every enabled
target with a non-empty troop mapping whose `next_raid_at ≤ now` (including
the unset value 0); each pass of the continuous main loop dispatches exactly
once, in the store's iteration order, to every enabled target with a
non-empty troop mapping whose `next_raid_at` is POSITIVE and `≤ now` —
targets with `next_raid_at = 0` receive no dispatch from a main-loop pass
(the `farm.next_raid_at > 0` guard at farming.py line 589). -/
theorem c1_pass_dispatch_log (mgr : FarmListManager) (env : Nat → SendEnv) (now : Nat) :
    (initial_sweep mgr env now).2 =
      ((mgr.farms.filter (fun fm => fm.enabled)).filter
        (fun fm => !fm.troops.isEmpty && decide (fm.next_raid_at ≤ now))).map
          (fun fm => fm.id) ∧
    (raid_pass mgr env now).2 =
      ((mgr.farms.filter (fun fm => fm.enabled)).filter
        (fun fm => (!fm.troops.isEmpty && fm.enabled) &&
          (decide (0 < fm.next_raid_at) && decide (fm.next_raid_at ≤ now)))).map
            (fun fm => fm.id) :=
  ⟨run_dispatch_round_log mgr env now _, run_dispatch_round_log mgr env now _⟩

/-- Counterexample for C1 as stated: a single enabled farm with troops and
`next_raid_at = 0 ≤ 100` receives zero dispatch attempts from a main-loop
scheduling pass at time 100, not exactly one. -/
theorem c1_counterexample :
    farm_unscheduled.enabled = true ∧ farm_unscheduled.troops ≠ [] ∧
    farm_unscheduled.next_raid_at ≤ 100 ∧
    (raid_pass mgr_unscheduled (fun _ => env_ok_noparse) 100).2 = [] := by
  decide

theorem slowest_speed_eq_foldl_omin (speeds : List (String × Nat)) :
    ∀ (troops : List (String × Nat)) (acc : Option Nat),
      troops.foldl
        (fun acc kv =>
          if 0 < kv.2 then
            match speeds.lookup kv.1 with
            | some s => omin acc s
            | none => acc
          else acc) acc
        = (matching_speeds speeds troops).foldl omin acc := by
  intro troops
  induction troops with
  | nil => intro acc; simp [matching_speeds]
  | cons kv rest ih =>
    intro acc
    by_cases hk : 0 < kv.2
    · rcases hl : speeds.lookup kv.1 with _ | s
      · simp only [List.foldl_cons, if_pos hk, hl, matching_speeds, List.filterMap_cons]
        simpa [matching_speeds] using ih acc
      · simp only [List.foldl_cons, if_pos hk, hl, matching_speeds, List.filterMap_cons]
        simpa [matching_speeds] using ih (omin acc s)
    · simp only [List.foldl_cons, if_neg hk, matching_speeds, List.filterMap_cons]
      simpa [matching_speeds] using ih acc

theorem foldl_omin_ne_none : ∀ (l : List Nat) (a : Nat), l.foldl omin (some a) ≠ none := by
  intro l
  induction l with
  | nil => intro a; simp
  | cons v rest ih =>
    intro a
    simp only [List.foldl_cons, omin]
    exact ih _

theorem foldl_omin_min : ∀ (l : List Nat) (acc : Option Nat) (s : Nat),
    l.foldl omin acc = some s →
      (s ∈ l ∨ acc = some s) ∧ (∀ m ∈ l, s ≤ m) ∧ (∀ a, acc = some a → s ≤ a) := by
  intro l
  induction l with
  | nil =>
    intro acc s h
    simp only [List.foldl_nil] at h
    subst h
    refine ⟨Or.inr rfl, by simp, ?_⟩
    intro a ha
    exact Nat.le_of_eq (Option.some_inj.mp ha)
  | cons v rest ih =>
    intro acc s h
    simp only [List.foldl_cons] at h
    obtain ⟨h1, h2, h3⟩ := ih (omin acc v) s h
    have hsv : s ≤ v := by
      rcases acc with _ | a
      · exact h3 v rfl
      · have := h3 (if v < a then v else a) (by simp [omin])
        split at this <;> omega
    refine ⟨?_, ?_, ?_⟩
    · rcases h1 with hm | he
      · exact Or.inl (List.mem_cons_of_mem v hm)
      · rcases acc with _ | a
        · simp only [omin] at he
          exact Or.inl (by simp [← Option.some_inj.mp he])
        · simp only [omin, Option.some_inj] at he
          by_cases hva : v < a
          · rw [if_pos hva] at he
            exact Or.inl (by simp [← he])
          · rw [if_neg hva] at he
            exact Or.inr (by rw [he])
    · intro m hm
      rcases List.mem_cons.mp hm with hv | hr
      · omega
      · exact h2 m hr
    · intro a ha
      subst ha
      have := h3 (if v < a then v else a) (by simp [omin])
      split at this <;> omega

/-- C3: the travel-time estimator uses the minimum table speed among troop
kinds with positive count.  When at least one positive troop kind matches the
tribe's speed table, the estimate equals the exact-arithmetic value of
`int(distance / (min_speed * server_speed) * 2 * 3600)`, i.e.
`Nat.sqrt (d² · 7200²) / (min_speed · server_speed)`; when no positive troop
kind matches, the estimate is 0 ("unknown").  Consequently a composition of
the fast kind t4 (speed 16) together with the slow kind t8 (speed 3) yields
the same estimate as the slow kind alone, for any fixed coordinates at
server speed 1. -/
theorem c3_estimate_min_speed (mgr : FarmListManager) (farm : FarmTarget)
    (_hsrv : 0 < mgr.server_speed) :
    (matching_speeds (tribe_speeds mgr.tribe) farm.troops = [] →
      estimate_travel_time mgr farm = 0) ∧
    (matching_speeds (tribe_speeds mgr.tribe) farm.troops ≠ [] →
      ∃ s, s ∈ matching_speeds (tribe_speeds mgr.tribe) farm.troops ∧
        (∀ m ∈ matching_speeds (tribe_speeds mgr.tribe) farm.troops, s ≤ m) ∧
        estimate_travel_time mgr farm
          = Nat.sqrt (dist_sq mgr farm * 51840000) / (s * mgr.server_speed)) ∧
    (∀ x y : Int, ∀ nFast nSlow : Nat, 0 < nFast → 0 < nSlow →
      estimate_travel_time mgr0
          { id := 0, name := "", x := x, y := y, troops := [("t4", nFast), ("t8", nSlow)] }
        = estimate_travel_time mgr0
          { id := 0, name := "", x := x, y := y, troops := [("t8", nSlow)] }) := by
  have hslow : slowest_speed (tribe_speeds mgr.tribe) farm.troops
      = (matching_speeds (tribe_speeds mgr.tribe) farm.troops).foldl omin none := by
    unfold slowest_speed
    exact slowest_speed_eq_foldl_omin (tribe_speeds mgr.tribe) farm.troops none
  refine ⟨?_, ?_, ?_⟩
  · intro hnil
    unfold estimate_travel_time
    rw [hslow, hnil]
    simp
  · intro hne
    obtain ⟨v, rest, hm⟩ := List.exists_cons_of_ne_nil hne
    have hsome : ∃ s, slowest_speed (tribe_speeds mgr.tribe) farm.troops = some s := by
      rw [hslow, hm]
      simp only [List.foldl_cons, omin]
      rcases hr : rest.foldl omin (some v) with _ | s
      · exact absurd hr (foldl_omin_ne_none rest v)
      · exact ⟨s, rfl⟩
    obtain ⟨s, hs⟩ := hsome
    have hmin := foldl_omin_min (matching_speeds (tribe_speeds mgr.tribe) farm.troops)
      none s (by rw [← hslow]; exact hs)
    refine ⟨s, ?_, hmin.2.1, ?_⟩
    · rcases hmin.1 with h | h
      · exact h
      · exact absurd h (by simp)
    · unfold estimate_travel_time
      rw [hs]
      by_cases hd : dist_sq mgr farm = 0
      · simp [hd]
      · simp [hd]
  · intro x y nFast nSlow hnF hnS
    have h1 : slowest_speed (tribe_speeds mgr0.tribe)
        [("t4", nFast), ("t8", nSlow)] = some 3 := by
      unfold slowest_speed
      simp only [List.foldl_cons, List.foldl_nil]
      rw [if_pos hnF]
      rw [show (tribe_speeds mgr0.tribe).lookup "t4" = some 16 from by decide]
      rw [if_pos hnS]
      rw [show (tribe_speeds mgr0.tribe).lookup "t8" = some 3 from by decide]
      rfl
    have h2 : slowest_speed (tribe_speeds mgr0.tribe) [("t8", nSlow)] = some 3 := by
      unfold slowest_speed
      simp only [List.foldl_cons, List.foldl_nil]
      rw [if_pos hnS]
      rw [show (tribe_speeds mgr0.tribe).lookup "t8" = some 3 from by decide]
      rfl
    unfold estimate_travel_time
    rw [h1, h2]
    rfl

/-- Witness for C3 at the spec's worked example: home (0,0), romans, server
speed 1, target (30,0), troops t1 x10 (speed 6) — the minimal matching speed
exists and the estimate evaluates to 36000 seconds round trip. -/
theorem c3_witness :
    (0 < mgr0.server_speed ∧
      matching_speeds (tribe_speeds mgr0.tribe) farm_spec_example.troops ≠ []) ∧
    (∃ s, s ∈ matching_speeds (tribe_speeds mgr0.tribe) farm_spec_example.troops ∧
      (∀ m ∈ matching_speeds (tribe_speeds mgr0.tribe) farm_spec_example.troops, s ≤ m) ∧
      estimate_travel_time mgr0 farm_spec_example
        = Nat.sqrt (dist_sq mgr0 farm_spec_example * 51840000) / (s * mgr0.server_speed)) ∧
    estimate_travel_time mgr0 farm_spec_example = 36000 :=
  ⟨⟨by decide, by decide⟩,
   (c3_estimate_min_speed mgr0 farm_spec_example (by decide)).2.1 (by decide),
   by
    have hd : dist_sq mgr0 farm_spec_example = 900 := by decide
    have h1 : slowest_speed (tribe_speeds mgr0.tribe) farm_spec_example.troops = some 6 := by
      decide
    have hsq : Nat.sqrt (900 * 51840000) = 216000 := by
      rw [show (900 * 51840000 : Nat) = 216000 * 216000 from by norm_num, Nat.sqrt_eq]
    unfold estimate_travel_time
    rw [hd, h1, hsq]
    rfl⟩

theorem add_farm_scan_history (s : Store) (tl n : String) (x y : Int) (nt : String) :
    (add_farm_to_list s tl n x y nt).1.scan_history = s.scan_history := by
  unfold add_farm_to_list
  rcases hf : s.lists.find? (fun kv => kv.1 == tl) with _ | kv <;> simp [hf]

theorem add_farm_active_name (s : Store) (tl n : String) (x y : Int) (nt : String) :
    (add_farm_to_list s tl n x y nt).1.active_list_name = s.active_list_name := by
  unfold add_farm_to_list
  rcases hf : s.lists.find? (fun kv => kv.1 == tl) with _ | kv <;> simp [hf]

theorem scan_step_history_inv (classify : Int → Int → Option ScannedTile) (sf : ScanFilter)
    (tl : String) (st : ScanResult) (p : Int × Int) (base : List String)
    (h : st.store.scan_history
      = base ++ (st.classified_log.filter (fun e => e.2)).map (fun e => e.1)) :
    (scan_step classify sf tl st p).store.scan_history
      = base ++ (((scan_step classify sf tl st p).classified_log.filter
          (fun e => e.2)).map (fun e => e.1)) := by
  unfold scan_step
  by_cases h1 : (is_coordinate_in_any_list st.store p.1 p.2).isSome
  · rw [if_pos h1]; exact h
  · rw [if_neg h1]
    by_cases h2 : st.store.scan_history.contains (coord_key p.1 p.2) = true
    · rw [if_pos h2]; exact h
    · rw [if_neg h2]
      rcases hc : classify p.1 p.2 with _ | tile
      · simpa using h
      · dsimp only
        by_cases h3 : (tile.tile_type == "empty" || tile.tile_type == "wilderness") = true
        · rw [if_pos h3]
          simp [h]
        · rw [if_neg h3]
          by_cases h4 : (!(matches_filter tile sf)) = true
          · rw [if_pos h4]
            simp [h]
          · rw [if_neg h4]
            simp only [add_farm_scan_history]
            simp [h]

theorem scan_fold_history_inv (classify : Int → Int → Option ScannedTile) (sf : ScanFilter)
    (tl : String) (l : List (Int × Int)) :
    ∀ (st : ScanResult) (base : List String),
      st.store.scan_history
        = base ++ (st.classified_log.filter (fun e => e.2)).map (fun e => e.1) →
      (l.foldl (scan_step classify sf tl) st).store.scan_history
        = base ++ (((l.foldl (scan_step classify sf tl) st).classified_log.filter
            (fun e => e.2)).map (fun e => e.1)) := by
  induction l with
  | nil => intro st base h; simpa using h
  | cons p rest ih =>
    intro st base h
    simp only [List.foldl_cons]
    exact ih (scan_step classify sf tl st p) base
      (scan_step_history_inv classify sf tl st p base h)

/-- C4 (amended): during a scan, the scan history grows by exactly the keys
of the coordinates whose classification SUCCEEDED, in order; a coordinate
submitted to classification on which the classifier returns null/throws is
counted as an error but is NOT recorded in scan history (the record at
farm_finder.py line 100 happens after the `tile is None` early `continue` at
lines 95-97), so a re-run will re-classify it. -/
theorem c4_history_records_successes (classify : Int → Int → Option ScannedTile)
    (cx cy : Int) (sf : ScanFilter) (tl : String) (store : Store) :
    (scan_area classify cx cy sf tl store).store.scan_history
      = store.scan_history ++
        (((scan_area classify cx cy sf tl store).classified_log.filter
            (fun e => e.2)).map (fun e => e.1)) := by
  unfold scan_area
  exact scan_fold_history_inv classify sf tl
    (generate_spiral_coords cx cy sf.radius) { store := store }
    store.scan_history (by simp)

/-- Counterexample for C4 as stated: with a classifier that throws on every
tile, the radius-1 scan around (0,0) submits coordinate (0,1) to
classification (it appears in the classified log), yet its key is absent
from the final scan history. -/
theorem c4_counterexample :
    (coord_key 0 1, false) ∈ (scan_area classify_none 0 0 sf1 "default" store0).classified_log ∧
    coord_key 0 1 ∉ (scan_area classify_none 0 0 sf1 "default" store0).store.scan_history := by
  decide

theorem add_farm_coord_mono (s : Store) (tl n : String) (x y : Int) (nt : String)
    (a b : Int) (h : (is_coordinate_in_any_list s a b).isSome = true) :
    (is_coordinate_in_any_list (add_farm_to_list s tl n x y nt).1 a b).isSome = true := by
  unfold is_coordinate_in_any_list at h ⊢
  rw [Option.isSome_map'] at h ⊢
  rw [List.find?_isSome] at h ⊢
  obtain ⟨kv, hkv, hp⟩ := h
  unfold add_farm_to_list
  rcases hf : s.lists.find? (fun kv => kv.1 == tl) with _ | kv0
  · simp only [hf]
    exact ⟨kv, hkv, hp⟩
  · simp only [hf]
    by_cases hkvtl : (kv.1 == tl) = true
    · refine ⟨_, List.mem_map_of_mem _ hkv, ?_⟩
      simp only [hkvtl, if_pos]
      rw [List.any_eq_true] at hp ⊢
      obtain ⟨fm, hfm, hc⟩ := hp
      exact ⟨fm, List.mem_append_left _ hfm, hc⟩
    · refine ⟨_, List.mem_map_of_mem _ hkv, ?_⟩
      simp only [Bool.not_eq_true] at hkvtl
      simp only [hkvtl]
      exact hp

theorem scan_step_errors_le (classify : Int → Int → Option ScannedTile) (sf : ScanFilter)
    (tl : String) (st : ScanResult) (p : Int × Int) :
    st.stats.errors ≤ (scan_step classify sf tl st p).stats.errors := by
  unfold scan_step
  by_cases h1 : (is_coordinate_in_any_list st.store p.1 p.2).isSome = true
  · rw [if_pos h1]
  · rw [if_neg h1]
    by_cases h2 : st.store.scan_history.contains (coord_key p.1 p.2) = true
    · rw [if_pos h2]
    · rw [if_neg h2]
      rcases hc : classify p.1 p.2 with _ | tile
      · exact Nat.le_succ _
      · dsimp only
        split_ifs <;> simp

theorem scan_fold_errors_le (classify : Int → Int → Option ScannedTile) (sf : ScanFilter)
    (tl : String) (l : List (Int × Int)) :
    ∀ st : ScanResult,
      st.stats.errors ≤ (l.foldl (scan_step classify sf tl) st).stats.errors := by
  induction l with
  | nil => intro st; simp
  | cons p rest ih =>
    intro st
    simp only [List.foldl_cons]
    exact Nat.le_trans (scan_step_errors_le classify sf tl st p)
      (ih (scan_step classify sf tl st p))

theorem scan_step_dup_or_error (classify : Int → Int → Option ScannedTile) (sf : ScanFilter)
    (tl : String) (st : ScanResult) (p : Int × Int) :
    dup_at (scan_step classify sf tl st p).store p ∨
    (scan_step classify sf tl st p).stats.errors = st.stats.errors + 1 := by
  unfold scan_step
  by_cases h1 : (is_coordinate_in_any_list st.store p.1 p.2).isSome = true
  · rw [if_pos h1]
    exact Or.inl (Or.inl h1)
  · rw [if_neg h1]
    by_cases h2 : st.store.scan_history.contains (coord_key p.1 p.2) = true
    · rw [if_pos h2]
      exact Or.inl (Or.inr (by simpa [List.contains, List.elem_iff] using h2))
    · rw [if_neg h2]
      rcases hc : classify p.1 p.2 with _ | tile
      · exact Or.inr rfl
      · dsimp only
        refine Or.inl (Or.inr ?_)
        split_ifs <;>
          first
            | exact List.mem_append_right _ (by simp)
            | (rw [add_farm_scan_history]; exact List.mem_append_right _ (by simp))

theorem scan_step_dup_mono (classify : Int → Int → Option ScannedTile) (sf : ScanFilter)
    (tl : String) (st : ScanResult) (p q : Int × Int) (h : dup_at st.store q) :
    dup_at (scan_step classify sf tl st p).store q := by
  unfold scan_step
  by_cases h1 : (is_coordinate_in_any_list st.store p.1 p.2).isSome = true
  · rw [if_pos h1]; exact h
  · rw [if_neg h1]
    by_cases h2 : st.store.scan_history.contains (coord_key p.1 p.2) = true
    · rw [if_pos h2]; exact h
    · rw [if_neg h2]
      rcases hc : classify p.1 p.2 with _ | tile
      · exact h
      · dsimp only
        rcases h with hl | hr
        · split_ifs <;>
            first
              | exact Or.inl hl
              | exact Or.inl (add_farm_coord_mono _ _ _ _ _ _ q.1 q.2 hl)
        · split_ifs <;>
            first
              | exact Or.inr (List.mem_append_left _ hr)
              | (refine Or.inr ?_; rw [add_farm_scan_history];
                 exact List.mem_append_left _ hr)

theorem scan_fold_dup_mono (classify : Int → Int → Option ScannedTile) (sf : ScanFilter)
    (tl : String) (l : List (Int × Int)) :
    ∀ (st : ScanResult) (q : Int × Int), dup_at st.store q →
      dup_at ((l.foldl (scan_step classify sf tl) st).store) q := by
  induction l with
  | nil => intro st q h; simpa using h
  | cons p rest ih =>
    intro st q h
    simp only [List.foldl_cons]
    exact ih (scan_step classify sf tl st p) q (scan_step_dup_mono classify sf tl st p q h)

theorem scan_fold_no_error_dup (classify : Int → Int → Option ScannedTile) (sf : ScanFilter)
    (tl : String) (l : List (Int × Int)) :
    ∀ st : ScanResult,
      (l.foldl (scan_step classify sf tl) st).stats.errors = st.stats.errors →
      ∀ q ∈ l, dup_at ((l.foldl (scan_step classify sf tl) st).store) q := by
  induction l with
  | nil => intro st _ q hq; simp at hq
  | cons p rest ih =>
    intro st h q hq
    simp only [List.foldl_cons] at h ⊢
    have hst1 := scan_step_errors_le classify sf tl st p
    have hrest := scan_fold_errors_le classify sf tl rest (scan_step classify sf tl st p)
    rcases List.mem_cons.mp hq with rfl | hq2
    · rcases scan_step_dup_or_error classify sf tl st q with hd | he
      · exact scan_fold_dup_mono classify sf tl rest (scan_step classify sf tl st q) q hd
      · omega
    · exact ih (scan_step classify sf tl st p) (by omega) q hq2

theorem scan_step_dup_effect (classify : Int → Int → Option ScannedTile) (sf : ScanFilter)
    (tl : String) (st : ScanResult) (p : Int × Int) (h : dup_at st.store p) :
    scan_step classify sf tl st p
      = { st with stats :=
          { st.stats with skipped_duplicate := st.stats.skipped_duplicate + 1 } } := by
  unfold scan_step
  by_cases h1 : (is_coordinate_in_any_list st.store p.1 p.2).isSome = true
  · rw [if_pos h1]
  · rw [if_neg h1]
    rcases h with hl | hr
    · exact absurd hl h1
    · rw [if_pos (by simpa [List.contains, List.elem_iff] using hr)]

theorem scan_fold_all_dup (classify : Int → Int → Option ScannedTile) (sf : ScanFilter)
    (tl : String) (l : List (Int × Int)) :
    ∀ st : ScanResult, (∀ p ∈ l, dup_at st.store p) →
      ((l.foldl (scan_step classify sf tl) st).store = st.store ∧
       (l.foldl (scan_step classify sf tl) st).stats.scanned = st.stats.scanned ∧
       (l.foldl (scan_step classify sf tl) st).stats.added = st.stats.added) := by
  induction l with
  | nil => intro st _; simp
  | cons p rest ih =>
    intro st h
    simp only [List.foldl_cons]
    rw [scan_step_dup_effect classify sf tl st p (h p (by simp))]
    have ihr := ih
      { st with stats := { st.stats with skipped_duplicate := st.stats.skipped_duplicate + 1 } }
      (fun q hq => h q (List.mem_cons_of_mem p hq))
    exact ihr

/-- C6 (amended): re-scanning the identical center and radius immediately
after a completed first scan in which every classification succeeded (zero
errors) classifies zero new tiles and adds zero new farms.  The error-free
hypothesis is forced: a coordinate whose classification failed is not
recorded in scan history (see C4), so a re-run re-classifies it. -/
theorem c6_rescan_idempotent (classify : Int → Int → Option ScannedTile) (cx cy : Int)
    (sf : ScanFilter) (tl : String) (store : Store)
    (herr : (scan_area classify cx cy sf tl store).stats.errors = 0) :
    (scan_area classify cx cy sf tl
        (scan_area classify cx cy sf tl store).store).stats.scanned = 0 ∧
    (scan_area classify cx cy sf tl
        (scan_area classify cx cy sf tl store).store).stats.added = 0 := by
  have hdup := scan_fold_no_error_dup classify sf tl
    (generate_spiral_coords cx cy sf.radius) { store := store }
    (by simpa [scan_area] using herr)
  have hall := scan_fold_all_dup classify sf tl
    (generate_spiral_coords cx cy sf.radius)
    { store := (scan_area classify cx cy sf tl store).store }
    (fun p hp => by simpa [scan_area] using hdup p hp)
  exact ⟨by simpa [scan_area] using hall.2.1, by simpa [scan_area] using hall.2.2⟩

/-- Witness for C6: a radius-1 scan with an everywhere-successful wilderness
classifier completes with zero errors, and the identical second scan
classifies zero tiles and adds zero farms. -/
theorem c6_witness :
    (scan_area classify_wild 0 0 sf1 "default" store0).stats.errors = 0 ∧
    ((scan_area classify_wild 0 0 sf1 "default"
        (scan_area classify_wild 0 0 sf1 "default" store0).store).stats.scanned = 0 ∧
     (scan_area classify_wild 0 0 sf1 "default"
        (scan_area classify_wild 0 0 sf1 "default" store0).store).stats.added = 0) :=
  ⟨by decide, c6_rescan_idempotent classify_wild 0 0 sf1 "default" store0 (by decide)⟩

/-- Counterexample for C6 as stated: with a classifier that throws on every
tile, the first radius-1 scan completes (8 tiles, 8 errors, nothing recorded),
and the immediate identical re-scan classifies 8 tiles again — not zero. -/
theorem c6_counterexample :
    (scan_area classify_none 0 0 sf1 "default"
        (scan_area classify_none 0 0 sf1 "default" store0).store).stats.scanned = 8 ∧
    (8 : Nat) ≠ 0 := by
  decide

theorem max_natAbs_eq (a b : Int) (r : Nat) :
    max a.natAbs b.natAbs = r ↔
      (a.natAbs ≤ r ∧ b.natAbs ≤ r ∧ (a.natAbs = r ∨ b.natAbs = r)) := by
  rw [Nat.max_def]
  split_ifs <;> omega

theorem mem_seg_top (cx cy : Int) (r : Nat) (qx qy : Int) :
    (qx, qy) ∈ (List.range (2 * r + 1)).map
        (fun (i : Nat) => (cx - (r : Int) + (i : Int), cy + (r : Int))) ↔
      (qy = cy + r ∧ cx - r ≤ qx ∧ qx ≤ cx + r) := by
  rw [List.mem_map]
  constructor
  · rintro ⟨i, hi, heq⟩
    rw [List.mem_range] at hi
    rw [Prod.mk.injEq] at heq
    omega
  · rintro ⟨h1, h2, h3⟩
    refine ⟨(qx - (cx - r)).toNat, List.mem_range.mpr (by omega), ?_⟩
    rw [Prod.mk.injEq]
    constructor <;> omega

theorem mem_seg_right (cx cy : Int) (r : Nat) (qx qy : Int) :
    (qx, qy) ∈ (List.range (2 * r)).map
        (fun (i : Nat) => (cx + (r : Int), cy + (r : Int) - 1 - (i : Int))) ↔
      (qx = cx + r ∧ cy - r ≤ qy ∧ qy ≤ cy + r - 1) := by
  rw [List.mem_map]
  constructor
  · rintro ⟨i, hi, heq⟩
    rw [List.mem_range] at hi
    rw [Prod.mk.injEq] at heq
    omega
  · rintro ⟨h1, h2, h3⟩
    refine ⟨(cy + r - 1 - qy).toNat, List.mem_range.mpr (by omega), ?_⟩
    rw [Prod.mk.injEq]
    constructor <;> omega

theorem mem_seg_bottom (cx cy : Int) (r : Nat) (qx qy : Int) :
    (qx, qy) ∈ (List.range (2 * r)).map
        (fun (i : Nat) => (cx + (r : Int) - 1 - (i : Int), cy - (r : Int))) ↔
      (qy = cy - r ∧ cx - r ≤ qx ∧ qx ≤ cx + r - 1) := by
  rw [List.mem_map]
  constructor
  · rintro ⟨i, hi, heq⟩
    rw [List.mem_range] at hi
    rw [Prod.mk.injEq] at heq
    omega
  · rintro ⟨h1, h2, h3⟩
    refine ⟨(cx + r - 1 - qx).toNat, List.mem_range.mpr (by omega), ?_⟩
    rw [Prod.mk.injEq]
    constructor <;> omega

theorem mem_seg_left (cx cy : Int) (r : Nat) (qx qy : Int) :
    (qx, qy) ∈ (List.range (2 * r - 1)).map
        (fun (i : Nat) => (cx - (r : Int), cy - (r : Int) + 1 + (i : Int))) ↔
      (qx = cx - r ∧ cy - r + 1 ≤ qy ∧ qy ≤ cy + r - 1) := by
  rw [List.mem_map]
  constructor
  · rintro ⟨i, hi, heq⟩
    rw [List.mem_range] at hi
    rw [Prod.mk.injEq] at heq
    omega
  · rintro ⟨h1, h2, h3⟩
    refine ⟨(qy - (cy - r + 1)).toNat, List.mem_range.mpr (by omega), ?_⟩
    rw [Prod.mk.injEq]
    constructor <;> omega

theorem mem_ring_coords (cx cy : Int) (r : Nat) (q : Int × Int) :
    q ∈ ring_coords cx cy r ↔ cheb_dist cx cy q = r := by
  obtain ⟨qx, qy⟩ := q
  rw [ring_coords]
  simp only [List.mem_append, mem_seg_top, mem_seg_right, mem_seg_bottom, mem_seg_left]
  unfold cheb_dist
  dsimp only
  rw [max_natAbs_eq]
  omega

theorem ring_coords_nodup (cx cy : Int) (r : Nat) : (ring_coords cx cy r).Nodup := by
  have n1 : ((List.range (2 * r + 1)).map
      (fun (i : Nat) => (cx - (r : Int) + (i : Int), cy + (r : Int)))).Nodup := by
    refine List.Nodup.map ?_ (List.nodup_range _)
    intro a b hab
    simp only [Prod.mk.injEq] at hab
    omega
  have n2 : ((List.range (2 * r)).map
      (fun (i : Nat) => (cx + (r : Int), cy + (r : Int) - 1 - (i : Int)))).Nodup := by
    refine List.Nodup.map ?_ (List.nodup_range _)
    intro a b hab
    simp only [Prod.mk.injEq] at hab
    omega
  have n3 : ((List.range (2 * r)).map
      (fun (i : Nat) => (cx + (r : Int) - 1 - (i : Int), cy - (r : Int)))).Nodup := by
    refine List.Nodup.map ?_ (List.nodup_range _)
    intro a b hab
    simp only [Prod.mk.injEq] at hab
    omega
  have n4 : ((List.range (2 * r - 1)).map
      (fun (i : Nat) => (cx - (r : Int), cy - (r : Int) + 1 + (i : Int)))).Nodup := by
    refine List.Nodup.map ?_ (List.nodup_range _)
    intro a b hab
    simp only [Prod.mk.injEq] at hab
    omega
  have d12 : List.Disjoint
      ((List.range (2 * r + 1)).map
        (fun (i : Nat) => (cx - (r : Int) + (i : Int), cy + (r : Int))))
      ((List.range (2 * r)).map
        (fun (i : Nat) => (cx + (r : Int), cy + (r : Int) - 1 - (i : Int)))) := by
    intro q h h'
    obtain ⟨qx, qy⟩ := q
    rw [mem_seg_top] at h
    rw [mem_seg_right] at h'
    omega
  have d13 : List.Disjoint
      ((List.range (2 * r + 1)).map
        (fun (i : Nat) => (cx - (r : Int) + (i : Int), cy + (r : Int))))
      ((List.range (2 * r)).map
        (fun (i : Nat) => (cx + (r : Int) - 1 - (i : Int), cy - (r : Int)))) := by
    intro q h h'
    obtain ⟨qx, qy⟩ := q
    rw [mem_seg_top] at h
    rw [mem_seg_bottom] at h'
    omega
  have d14 : List.Disjoint
      ((List.range (2 * r + 1)).map
        (fun (i : Nat) => (cx - (r : Int) + (i : Int), cy + (r : Int))))
      ((List.range (2 * r - 1)).map
        (fun (i : Nat) => (cx - (r : Int), cy - (r : Int) + 1 + (i : Int)))) := by
    intro q h h'
    obtain ⟨qx, qy⟩ := q
    rw [mem_seg_top] at h
    rw [mem_seg_left] at h'
    omega
  have d23 : List.Disjoint
      ((List.range (2 * r)).map
        (fun (i : Nat) => (cx + (r : Int), cy + (r : Int) - 1 - (i : Int))))
      ((List.range (2 * r)).map
        (fun (i : Nat) => (cx + (r : Int) - 1 - (i : Int), cy - (r : Int)))) := by
    intro q h h'
    obtain ⟨qx, qy⟩ := q
    rw [mem_seg_right] at h
    rw [mem_seg_bottom] at h'
    omega
  have d24 : List.Disjoint
      ((List.range (2 * r)).map
        (fun (i : Nat) => (cx + (r : Int), cy + (r : Int) - 1 - (i : Int))))
      ((List.range (2 * r - 1)).map
        (fun (i : Nat) => (cx - (r : Int), cy - (r : Int) + 1 + (i : Int)))) := by
    intro q h h'
    obtain ⟨qx, qy⟩ := q
    rw [mem_seg_right] at h
    rw [mem_seg_left] at h'
    omega
  have d34 : List.Disjoint
      ((List.range (2 * r)).map
        (fun (i : Nat) => (cx + (r : Int) - 1 - (i : Int), cy - (r : Int))))
      ((List.range (2 * r - 1)).map
        (fun (i : Nat) => (cx - (r : Int), cy - (r : Int) + 1 + (i : Int)))) := by
    intro q h h'
    obtain ⟨qx, qy⟩ := q
    rw [mem_seg_bottom] at h
    rw [mem_seg_left] at h'
    omega
  rw [ring_coords]
  exact List.Nodup.append
    (List.Nodup.append (List.Nodup.append n1 n2 d12) n3
      (List.disjoint_append_left.mpr ⟨d13, d23⟩))
    n4
    (List.disjoint_append_left.mpr ⟨List.disjoint_append_left.mpr ⟨d14, d24⟩, d34⟩)

theorem dedup_first_eq_self :
    ∀ (l seen : List (Int × Int)), l.Nodup → (∀ a ∈ l, a ∉ seen) →
      dedup_first seen l = l := by
  intro l
  induction l with
  | nil => intro seen _ _; rfl
  | cons c rest ih =>
    intro seen hnd hfresh
    unfold dedup_first
    rw [if_neg (hfresh c (by simp))]
    congr 1
    refine ih (c :: seen) (List.Nodup.of_cons hnd) ?_
    intro a ha
    rw [List.mem_cons]
    push_neg
    constructor
    · intro hac
      subst hac
      exact (List.nodup_cons.mp hnd).1 ha
    · exact hfresh a (List.mem_cons_of_mem c ha)

theorem spiral_raw_nodup (cx cy : Int) (radius : Nat) :
    (((List.range radius).map (fun k => ring_coords cx cy (k + 1))).flatten).Nodup := by
  rw [List.nodup_flatten]
  constructor
  · intro l hl
    rw [List.mem_map] at hl
    obtain ⟨k, _, rfl⟩ := hl
    exact ring_coords_nodup cx cy (k + 1)
  · rw [List.pairwise_map]
    refine List.Pairwise.imp ?_ (List.pairwise_lt_range radius)
    intro a b hab q hqa hqb
    rw [mem_ring_coords] at hqa hqb
    omega

theorem spiral_raw_sorted (cx cy : Int) (radius : Nat) :
    (((List.range radius).map (fun k => ring_coords cx cy (k + 1))).flatten).Pairwise
      (fun p q => cheb_dist cx cy p ≤ cheb_dist cx cy q) := by
  rw [List.pairwise_flatten]
  constructor
  · intro l hl
    rw [List.mem_map] at hl
    obtain ⟨k, _, rfl⟩ := hl
    refine List.pairwise_of_forall_mem_list ?_
    intro a ha b hb
    rw [mem_ring_coords] at ha hb
    omega
  · rw [List.pairwise_map]
    refine List.Pairwise.imp ?_ (List.pairwise_lt_range radius)
    intro a b hab x hx y hy
    rw [mem_ring_coords] at hx hy
    omega

theorem mem_spiral_raw (cx cy : Int) (radius : Nat) (q : Int × Int) :
    q ∈ ((List.range radius).map (fun k => ring_coords cx cy (k + 1))).flatten ↔
      (1 ≤ cheb_dist cx cy q ∧ cheb_dist cx cy q ≤ radius) := by
  rw [List.mem_flatten]
  constructor
  · rintro ⟨l, hl, hq⟩
    rw [List.mem_map] at hl
    obtain ⟨k, hk, rfl⟩ := hl
    rw [List.mem_range] at hk
    rw [mem_ring_coords] at hq
    omega
  · rintro ⟨h1, h2⟩
    refine ⟨ring_coords cx cy ((cheb_dist cx cy q - 1) + 1),
      List.mem_map_of_mem _ (List.mem_range.mpr (by omega)), ?_⟩
    rw [mem_ring_coords]
    omega

/-- C7: for every center and radius, the generated scan sequence contains
exactly the tiles whose Chebyshev distance from the center is between 1
and the radius (the center itself excluded), each exactly once, ordered by
nondecreasing Chebyshev distance: every tile of ring r precedes every tile
of ring r+1.  (Stated for all radii; for radius 0 the sequence is empty.) -/
theorem c7_spiral_coords (cx cy : Int) (radius : Nat) :
    (∀ q, q ∈ generate_spiral_coords cx cy radius ↔
      (1 ≤ cheb_dist cx cy q ∧ cheb_dist cx cy q ≤ radius)) ∧
    (generate_spiral_coords cx cy radius).Nodup ∧
    (generate_spiral_coords cx cy radius).Pairwise
      (fun p q => cheb_dist cx cy p ≤ cheb_dist cx cy q) := by
  have hgen : generate_spiral_coords cx cy radius
      = ((List.range radius).map (fun k => ring_coords cx cy (k + 1))).flatten := by
    unfold generate_spiral_coords
    exact dedup_first_eq_self _ [] (spiral_raw_nodup cx cy radius) (by simp)
  rw [hgen]
  exact ⟨mem_spiral_raw cx cy radius, spiral_raw_nodup cx cy radius,
    spiral_raw_sorted cx cy radius⟩

end Travian
